import Mathlib

/-!
Shallow embedding of the network core of `iae-chatbot-mistral`:

* `Retry`    — the retrying HTTP executor `fetchWithRetry` and its failure
  classification (`src/utils/fetchWithRetry.ts`, concatenated into
  `src/services/mistral/agentService.ts`).
* `SSE`      — the incremental event-stream decoder
  `ConversationService.parseEventStream`
  (`src/services/mistral/conversationService.ts`).
* `Workflow` — the `WorkflowCoordinator` state machine
  (`src/services/workflow/workflowCoordinator.ts`).

Machine integers of the source are modelled as `Nat`/`Int`; millisecond
delays (JS doubles holding exact small integers here) as `ℚ`; JS dynamic
values as explicit `Option`s; `Math.random()` as an explicit jitter argument.
-/

set_option autoImplicit false

namespace Retry

/-- `enum FetchErrorType` of the source. -/
inductive FetchErrorType where
  | network
  | timeout
  | server
  | client
  | rateLimit
  | parseFailure
  | abortKind
  | unknownKind
deriving DecidableEq, Repr

/-- The `FetchError` class: the fields that decide retry behaviour
(`type`, `status`, `retryAfter`, `attempt`); message/url/response carry no
control flow and are omitted. -/
structure FetchError where
  type : FetchErrorType
  status : Option Nat
  retryAfter : Option Nat
  attempt : Nat
deriving DecidableEq, Repr

/-- `FetchError.shouldRetry(maxRetries)`: no retry once `attempt >= maxRetries`;
then network errors, server errors other than 413, and rate limits retry. -/
def FetchError.shouldRetry (e : FetchError) (maxRetries : Nat) : Bool :=
  if e.attempt ≥ maxRetries then false
  else if e.type == .network then true
  else if e.type == .server && e.status != some 413 then true
  else if e.type == .rateLimit then true
  else false

/-- `FetchError.getRetryDelay(baseDelay, maxDelay)`.  `jitterRand` models the
`Math.random()` draw (a value in `[0,1)`).  A positive `retryAfter` (seconds)
is converted to milliseconds and capped at `maxDelay`; otherwise exponential
backoff `baseDelay * 2^(attempt-1)` plus up to 30% jitter, capped. -/
def FetchError.getRetryDelay (e : FetchError) (jitterRand : ℚ)
    (baseDelay maxDelay : ℚ) : ℚ :=
  if 0 < e.retryAfter.getD 0 then
    min ((e.retryAfter.getD 0 : ℚ) * 1000) maxDelay
  else
    let exponentialDelay := baseDelay * 2 ^ (e.attempt - 1)
    let jitter := jitterRand * (3 / 10) * exponentialDelay
    min (exponentialDelay + jitter) maxDelay

/-- `defaultOptions` of the source. -/
def defaultRetries : Nat := 3

/-- `defaultOptions.backoff` (ms). -/
def defaultBackoff : ℚ := 500

/-- `defaultOptions.maxBackoff` (ms). -/
def defaultMaxBackoff : ℚ := 30000

/-- The `Retry-After` response header, as the three cases the source's
`parseRetryAfter` distinguishes: absent; a string of digits
(`/^\d+$/`, delta-seconds); a parseable HTTP-date, carried as
`deltaMs = date.getTime() - Date.now()`; or unparseable text. -/
inductive RetryAfterHeader where
  | absent
  | deltaSeconds (n : Nat)
  | httpDate (deltaMs : Int)
  | malformed
deriving DecidableEq, Repr

/-- `parseRetryAfter(response)`: digits parse directly; a date becomes
`Math.max(0, Math.ceil((date.getTime() - Date.now()) / 1000))`. -/
def parseRetryAfter : RetryAfterHeader → Option Nat
  | .absent => none
  | .deltaSeconds n => some n
  | .httpDate deltaMs => some (max 0 ((deltaMs + 999).ediv 1000)).toNat
  | .malformed => none

/-- `getErrorTypeFromStatus(status)`. -/
def getErrorTypeFromStatus (status : Nat) : FetchErrorType :=
  if status ≥ 500 then .server
  else if status = 429 then .rateLimit
  else if status ≥ 400 then .client
  else .unknownKind

/-- `createErrorFromResponse`: classification plus the parsed
`Retry-After` header (body/message extraction carries no control flow). -/
def errorFromResponse (status : Nat) (h : RetryAfterHeader) (attempt : Nat) :
    FetchError :=
  { type := getErrorTypeFromStatus status
    status := some status
    retryAfter := parseRetryAfter h
    attempt := attempt }

/-- What one `fetch` attempt does, as seen by the retry loop: a 2xx success,
an HTTP error response, an `AbortError` fired by the timeout, or any other
transport exception. -/
inductive AttemptOutcome where
  | ok
  | httpError (status : Nat) (retryAfterHeader : RetryAfterHeader)
  | abortTimeout
  | networkFailure
deriving DecidableEq, Repr

/-- The `catch` block of `fetchWithRetry`: an `AbortError` becomes a
`TIMEOUT` error, anything else a `NETWORK` error. -/
def errorFromException (timedOut : Bool) (attempt : Nat) : FetchError :=
  if timedOut then
    { type := .timeout, status := none, retryAfter := none, attempt := attempt }
  else
    { type := .network, status := none, retryAfter := none, attempt := attempt }

/-- Observable outcome of a `fetchWithRetry` run: the returned `Result`,
the number of `fetch` calls performed, and the delays slept between
attempts, in order. -/
structure RunResult where
  success : Bool
  error : Option FetchError
  calls : Nat
  delays : List ℚ
deriving DecidableEq, Repr

/-- The `FetchError` built for the `attempt`-th call, or `none` on a 2xx:
the response path uses `createErrorFromResponse`, the `catch` path
distinguishes `AbortError` (timeout) from any other exception (network). -/
def outcomeError : AttemptOutcome → Nat → Option FetchError
  | .ok, _ => none
  | .httpError s h, attempt => some (errorFromResponse s h attempt)
  | .abortTimeout, attempt => some (errorFromException true attempt)
  | .networkFailure, attempt => some (errorFromException false attempt)

/-- The `while (true)` loop of `fetchWithRetry`.  `env attempt` is the outcome
of the `attempt`-th `fetch` call, `jitterRand attempt` the `Math.random()`
draw of that iteration.  The source repeats the identical
`shouldRetry`/`getRetryDelay`/sleep/`continue` block in its response path
and its `catch` path; here it appears once, after `outcomeError`.  The loop
terminates because `shouldRetry` refuses once `attempt ≥ retries`; `fuel`
only makes that termination structural — the `fuel = 0` fallback is
unreachable whenever `retries ≤ fuel + attempt`
(`fetchLoop_fuel_insensitive` below). -/
def fetchLoop (env : Nat → AttemptOutcome) (jitterRand : Nat → ℚ)
    (retries : Nat) (backoff maxBackoff : ℚ) :
    Nat → Nat → RunResult
  | fuel, attempt =>
    match outcomeError (env attempt) attempt with
    | none => { success := true, error := none, calls := attempt, delays := [] }
    | some err =>
      if err.shouldRetry retries then
        match fuel with
        | 0 => { success := false, error := some err, calls := attempt, delays := [] }
        | fuel' + 1 =>
          let d := err.getRetryDelay (jitterRand attempt) backoff maxBackoff
          let rest := fetchLoop env jitterRand retries backoff maxBackoff fuel' (attempt + 1)
          { rest with delays := d :: rest.delays }
      else { success := false, error := some err, calls := attempt, delays := [] }

/-- `fetchWithRetry(url, options)`: the attempt counter starts at 1. -/
def fetchWithRetry (env : Nat → AttemptOutcome) (jitterRand : Nat → ℚ)
    (retries : Nat) (backoff maxBackoff : ℚ) : RunResult :=
  fetchLoop env jitterRand retries backoff maxBackoff retries 1

/-- `shouldRetryRequest(status)` — exported helper, never called by
`fetchWithRetry`. -/
def shouldRetryRequest (status : Nat) : Bool :=
  if status = 408 || status = 502 || status = 503 || status = 504 then true
  else if status = 429 then true
  else if status ≥ 400 && status < 500 then false
  else status ≥ 500

/-- `getMaxRetries(status)` — exported helper, never called by
`fetchWithRetry`. -/
def getMaxRetries (status : Nat) : Nat :=
  if status = 429 then 4
  else if status = 408 || status = 502 || status = 503 || status = 504 || status ≥ 500 then 3
  else 0

/-- The error `outcomeError` builds always carries the attempt it was built
for. -/
theorem outcomeError_attempt (o : AttemptOutcome) (a : Nat) (e : FetchError)
    (h : outcomeError o a = some e) : e.attempt = a := by
  cases o with
  | ok => simp [outcomeError] at h
  | httpError s hh =>
    simp only [outcomeError, Option.some.injEq] at h
    subst h; rfl
  | abortTimeout =>
    simp only [outcomeError, Option.some.injEq] at h
    subst h; rfl
  | networkFailure =>
    simp only [outcomeError, Option.some.injEq] at h
    subst h; rfl

/-- `shouldRetry` refuses once the attempt counter reaches the ceiling. -/
theorem FetchError.shouldRetry_false_of_le (e : FetchError) (m : Nat)
    (h : m ≤ e.attempt) : e.shouldRetry m = false := by
  simp [FetchError.shouldRetry, h]

/-- Conversely, a positive `shouldRetry` guarantees the counter is still
below the ceiling. -/
theorem FetchError.attempt_lt_of_shouldRetry (e : FetchError) (m : Nat)
    (h : e.shouldRetry m = true) : e.attempt < m := by
  by_cases hle : m ≤ e.attempt
  · rw [e.shouldRetry_false_of_le m hle] at h
    exact absurd h (by simp)
  · omega

/-- The `fuel = 0` fallback of `fetchLoop` is never taken when
`retries ≤ fuel + attempt`: adding fuel does not change the result, so the
fuelled loop is the source's unbounded `while (true)` loop. -/
theorem fetchLoop_fuel_insensitive (env : Nat → AttemptOutcome)
    (jitterRand : Nat → ℚ) (retries : Nat) (backoff maxBackoff : ℚ) :
    ∀ fuel attempt, retries ≤ fuel + attempt →
      fetchLoop env jitterRand retries backoff maxBackoff fuel attempt =
      fetchLoop env jitterRand retries backoff maxBackoff (fuel + 1) attempt := by
  intro fuel
  induction fuel with
  | zero =>
    intro attempt h
    conv_lhs => rw [fetchLoop]
    conv_rhs => rw [fetchLoop]
    cases ho : outcomeError (env attempt) attempt with
    | none => rfl
    | some err =>
      have : err.shouldRetry retries = false :=
        err.shouldRetry_false_of_le retries
          (by rw [outcomeError_attempt _ _ _ ho]; omega)
      simp [this]
  | succ fuel ih =>
    intro attempt h
    conv_lhs => rw [fetchLoop]
    conv_rhs => rw [fetchLoop]
    cases ho : outcomeError (env attempt) attempt with
    | none => rfl
    | some err =>
      by_cases hr : err.shouldRetry retries
      · simp only [hr, if_true]
        rw [ih (attempt + 1) (by omega)]
      · simp [hr]

/-- On a positive `retryAfter`, the delay is the server value in
milliseconds capped at `maxDelay`, independent of the jitter draw, the
base delay and the attempt — the computed exponential backoff is never
consulted. -/
theorem getRetryDelay_of_retryAfter (e : FetchError) (j : ℚ) (N : Nat)
    (base maxD : ℚ) (hra : e.retryAfter = some N) (hN : 0 < N) :
    e.getRetryDelay j base maxD = min ((N : ℚ) * 1000) maxD := by
  rw [FetchError.getRetryDelay, hra]
  simp only [Option.getD_some]
  rw [if_pos hN]

/-- C2: the claim says `fetchWithRetry` under default options gives
RateLimited (429) failures a retry ceiling of 4, above the default 3 of
Network and ServerError failures.  The code violates it: the loop checks
`error.shouldRetry(retries)` with the uniform default `retries = 3` and
never consults `getMaxRetries`, so a permanently-429 endpoint is called
exactly 3 times (attempts 1..3, i.e. 2 retries) — precisely as many as a
permanently failing network call or a 503 endpoint — even though the
exported (dead) helper `getMaxRetries` maps 429 to 4 and 503 to 3, as the
source's own doc comment promises. -/
theorem rateLimited_gets_uniform_default_ceiling :
    (Retry.fetchWithRetry (fun _ => .httpError 429 .absent) (fun _ => 0)
      Retry.defaultRetries Retry.defaultBackoff Retry.defaultMaxBackoff).calls = 3 ∧
    (Retry.fetchWithRetry (fun _ => .httpError 429 .absent) (fun _ => 0)
      Retry.defaultRetries Retry.defaultBackoff Retry.defaultMaxBackoff).success = false ∧
    ((Retry.fetchWithRetry (fun _ => .httpError 429 .absent) (fun _ => 0)
      Retry.defaultRetries Retry.defaultBackoff Retry.defaultMaxBackoff).error.map
        Retry.FetchError.type) = some .rateLimit ∧
    (Retry.fetchWithRetry (fun _ => .networkFailure) (fun _ => 0)
      Retry.defaultRetries Retry.defaultBackoff Retry.defaultMaxBackoff).calls = 3 ∧
    (Retry.fetchWithRetry (fun _ => .httpError 503 .absent) (fun _ => 0)
      Retry.defaultRetries Retry.defaultBackoff Retry.defaultMaxBackoff).calls = 3 ∧
    Retry.getMaxRetries 429 = 4 ∧ Retry.getMaxRetries 503 = 3 := by
  decide

/-- C3: the claim says a Timeout failure (expired `spec.timeout` aborting
the call) and a 408 response are retryable and are retried like Network
and non-413 ServerError failures.  The code violates it: `shouldRetry`
has no case for `FetchErrorType.TIMEOUT`, and `getErrorTypeFromStatus`
classifies 408 as `CLIENT`, so both return after a single call even when
the next attempt would have succeeded — while a network failure or a 503
in the same position is retried and the run succeeds on attempt 2.  The
exported (dead) helper `shouldRetryRequest` contradicts this by returning
`true` for 408, as does the source's own doc comment. -/
theorem timeout_and_408_not_retried :
    (Retry.fetchWithRetry (fun a => if a = 1 then .abortTimeout else .ok) (fun _ => 0)
      Retry.defaultRetries Retry.defaultBackoff Retry.defaultMaxBackoff).calls = 1 ∧
    (Retry.fetchWithRetry (fun a => if a = 1 then .abortTimeout else .ok) (fun _ => 0)
      Retry.defaultRetries Retry.defaultBackoff Retry.defaultMaxBackoff).success = false ∧
    ((Retry.fetchWithRetry (fun a => if a = 1 then .abortTimeout else .ok) (fun _ => 0)
      Retry.defaultRetries Retry.defaultBackoff Retry.defaultMaxBackoff).error.map
        Retry.FetchError.type) = some .timeout ∧
    (Retry.fetchWithRetry (fun a => if a = 1 then .httpError 408 .absent else .ok) (fun _ => 0)
      Retry.defaultRetries Retry.defaultBackoff Retry.defaultMaxBackoff).calls = 1 ∧
    ((Retry.fetchWithRetry (fun a => if a = 1 then .httpError 408 .absent else .ok) (fun _ => 0)
      Retry.defaultRetries Retry.defaultBackoff Retry.defaultMaxBackoff).error.map
        Retry.FetchError.type) = some .client ∧
    (Retry.fetchWithRetry (fun a => if a = 1 then .networkFailure else .ok) (fun _ => 0)
      Retry.defaultRetries Retry.defaultBackoff Retry.defaultMaxBackoff).success = true ∧
    (Retry.fetchWithRetry (fun a => if a = 1 then .networkFailure else .ok) (fun _ => 0)
      Retry.defaultRetries Retry.defaultBackoff Retry.defaultMaxBackoff).calls = 2 ∧
    (Retry.fetchWithRetry (fun a => if a = 1 then .httpError 503 .absent else .ok) (fun _ => 0)
      Retry.defaultRetries Retry.defaultBackoff Retry.defaultMaxBackoff).calls = 2 ∧
    Retry.shouldRetryRequest 408 = true := by
  decide

/-- The first inter-attempt delay of a default-options run against an
endpoint that always answers 429 with `Retry-After: N` (`N > 0`):
`min(N·1000, 30000)` milliseconds, whatever the jitter draws. -/
theorem fetchWithRetry_429_first_delay (jf : Nat → ℚ) (N : Nat) (hN : 0 < N) :
    (Retry.fetchWithRetry (fun _ => .httpError 429 (.deltaSeconds N)) jf
      Retry.defaultRetries Retry.defaultBackoff Retry.defaultMaxBackoff).delays.head? =
      some (min ((N : ℚ) * 1000) 30000) := by
  have hra : (errorFromResponse 429 (.deltaSeconds N) 1).retryAfter = some N := rfl
  have hsr : (errorFromResponse 429 (.deltaSeconds N) 1).shouldRetry defaultRetries = true := by
    simp [errorFromResponse, getErrorTypeFromStatus, FetchError.shouldRetry, defaultRetries,
      parseRetryAfter]
  rw [fetchWithRetry]
  conv_lhs => rw [fetchLoop]
  simp only [outcomeError, hsr, if_true, List.head?_cons, Option.some.injEq]
  rw [getRetryDelay_of_retryAfter _ _ N _ _ hra hN]
  rfl

/-- C4 (counterexample): the claim says that for every `N > 0` a 429 with
`Retry-After: N` makes `fetchWithRetry` wait at least `N` seconds.  At
`N = 31` under default options the wait is `min(31·1000, maxBackoff) =
30000 ms < 31 s`. -/
theorem retryAfter_31s_wait_capped_below_31s :
    (Retry.fetchWithRetry (fun _ => .httpError 429 (.deltaSeconds 31)) (fun _ => 0)
      Retry.defaultRetries Retry.defaultBackoff Retry.defaultMaxBackoff).delays.head? =
      some 30000 ∧ (30000 : ℚ) < 31 * 1000 := by
  constructor
  · rw [fetchWithRetry_429_first_delay (fun _ => 0) 31 (by decide)]
    norm_num
  · norm_num

/-- C4 (amended): on a 429 whose `Retry-After` header parses to `N > 0`
seconds (delta-seconds directly; an HTTP-date `N` seconds ahead via the
clamped ceiling), the delay before the next retry is exactly
`min(N·1000 ms, maxDelay)` — the server value is preferred over the
computed exponential backoff (the result is independent of jitter, base
delay and attempt) — hence at least `N` seconds whenever `N·1000 ≤
maxDelay` (for the default `maxBackoff = 30000`, whenever `N ≤ 30`). -/
theorem retryAfter_preferred_and_capped (e : Retry.FetchError) (j : ℚ) (N : Nat)
    (base maxD : ℚ) (hra : e.retryAfter = some N) (hN : 0 < N) :
    e.getRetryDelay j base maxD = min ((N : ℚ) * 1000) maxD ∧
    ((N : ℚ) * 1000 ≤ maxD → (N : ℚ) * 1000 ≤ e.getRetryDelay j base maxD) ∧
    Retry.parseRetryAfter (.deltaSeconds N) = some N ∧
    Retry.parseRetryAfter (.httpDate ((N : Int) * 1000)) = some N ∧
    (∀ jf : Nat → ℚ,
      (Retry.fetchWithRetry (fun _ => .httpError 429 (.deltaSeconds N)) jf
        Retry.defaultRetries Retry.defaultBackoff Retry.defaultMaxBackoff).delays.head? =
        some (min ((N : ℚ) * 1000) 30000)) := by
  refine ⟨Retry.getRetryDelay_of_retryAfter e j N base maxD hra hN, ?_, rfl, ?_,
    fun jf => Retry.fetchWithRetry_429_first_delay jf N hN⟩
  · intro hle
    rw [Retry.getRetryDelay_of_retryAfter e j N base maxD hra hN]
    exact le_of_eq (min_eq_left hle).symm
  · simp only [Retry.parseRetryAfter, Option.some.injEq]
    have h : ((N : Int) * 1000 + 999).ediv 1000 = (N : Int) := by
      rw [show ((N : Int) * 1000 + 999).ediv 1000 = ((N : Int) * 1000 + 999) / 1000 from rfl]
      omega
    rw [h, max_eq_right (by positivity), Int.toNat_natCast]

/-- C4 (witness): the amended statement at `N = 5`, the error produced by a
429 response carrying `Retry-After: 5` at attempt 1, zero jitter and the
default backoff parameters. -/
theorem retryAfter_preferred_and_capped_witness :
    (({ type := .rateLimit, status := some 429, retryAfter := some 5, attempt := 1 } :
        Retry.FetchError).retryAfter = some 5 ∧ 0 < 5) ∧
    ({ type := .rateLimit, status := some 429, retryAfter := some 5, attempt := 1 } :
        Retry.FetchError).getRetryDelay 0 500 30000 = min ((5 : ℚ) * 1000) 30000 ∧
    ((5 : ℚ) * 1000 ≤ 30000 → (5 : ℚ) * 1000 ≤
      ({ type := .rateLimit, status := some 429, retryAfter := some 5, attempt := 1 } :
        Retry.FetchError).getRetryDelay 0 500 30000) ∧
    Retry.parseRetryAfter (.deltaSeconds 5) = some 5 ∧
    Retry.parseRetryAfter (.httpDate ((5 : Int) * 1000)) = some 5 ∧
    (∀ jf : Nat → ℚ,
      (Retry.fetchWithRetry (fun _ => .httpError 429 (.deltaSeconds 5)) jf
        Retry.defaultRetries Retry.defaultBackoff Retry.defaultMaxBackoff).delays.head? =
        some (min ((5 : ℚ) * 1000) 30000)) :=
  ⟨⟨rfl, by decide⟩,
    retryAfter_preferred_and_capped
      { type := .rateLimit, status := some 429, retryAfter := some 5, attempt := 1 }
      0 5 500 30000 rfl (by decide)⟩

end Retry

/-- `enum StreamEventType` of the shared type definitions: the six known
SSE event names plus the forward-compatible `UNKNOWN`. -/
inductive StreamEventType where
  | conversationResponseStarted
  | toolExecutionStarted
  | toolExecutionDone
  | agentHandoffStarted
  | messageOutputDelta
  | conversationResponseDone
  | unknownEvent
deriving DecidableEq, Repr

namespace SSE

/-- `ConversationService.mapEventType`: the switch over the six known
names, defaulting to `UNKNOWN`. -/
def mapEventType (eventType : String) : StreamEventType :=
  if eventType = "conversation.response.started" then .conversationResponseStarted
  else if eventType = "tool.execution.started" then .toolExecutionStarted
  else if eventType = "tool.execution.done" then .toolExecutionDone
  else if eventType = "agent.handoff.started" then .agentHandoffStarted
  else if eventType = "message.output.delta" then .messageOutputDelta
  else if eventType = "conversation.response.done" then .conversationResponseDone
  else .unknownEvent

/-- The six event names `mapEventType` recognises. -/
def knownEventNames : List String :=
  ["conversation.response.started", "tool.execution.started",
   "tool.execution.done", "agent.handoff.started",
   "message.output.delta", "conversation.response.done"]

/-- State of `new TextDecoder('utf-8')` between `decode(value, {stream:true})`
calls, as in the WHATWG Encoding standard's UTF-8 decoder: the partial code
point, how many continuation bytes were seen and are needed, the boundaries
restricting the next continuation byte, and whether the first code point
(the point where a leading BOM would be stripped) has been produced. -/
structure Utf8State where
  codePoint : Nat
  bytesSeen : Nat
  bytesNeeded : Nat
  lowerBoundary : Nat
  upperBoundary : Nat
  bomSeen : Bool
deriving DecidableEq, Repr

/-- Fresh decoder state. -/
def Utf8State.init : Utf8State :=
  { codePoint := 0, bytesSeen := 0, bytesNeeded := 0,
    lowerBoundary := 0x80, upperBoundary := 0xBF, bomSeen := false }

/-- WHATWG UTF-8 decoder, `bytesNeeded = 0` case: ASCII is emitted directly,
lead bytes set up a multi-byte sequence (with tightened boundaries for
`E0/ED/F0/F4` to exclude overlongs and surrogates), anything else is an
error emitting U+FFFD. -/
def utf8Lead (st : Utf8State) (b : Nat) : Utf8State × List Nat :=
  if b ≤ 0x7F then (st, [b])
  else if 0xC2 ≤ b ∧ b ≤ 0xDF then
    ({ st with bytesNeeded := 1, codePoint := b &&& 0x1F }, [])
  else if 0xE0 ≤ b ∧ b ≤ 0xEF then
    ({ st with
        bytesNeeded := 2, codePoint := b &&& 0xF,
        lowerBoundary := if b = 0xE0 then 0xA0 else st.lowerBoundary,
        upperBoundary := if b = 0xED then 0x9F else st.upperBoundary }, [])
  else if 0xF0 ≤ b ∧ b ≤ 0xF4 then
    ({ st with
        bytesNeeded := 3, codePoint := b &&& 0x7,
        lowerBoundary := if b = 0xF0 then 0x90 else st.lowerBoundary,
        upperBoundary := if b = 0xF4 then 0x8F else st.upperBoundary }, [])
  else (st, [0xFFFD])

/-- One byte of the WHATWG UTF-8 decoder (error mode `replacement`, as for
`new TextDecoder('utf-8')`): a continuation byte outside the boundaries
resets the state, emits U+FFFD and reprocesses the byte as a lead
("prepend byte to stream"); an in-range continuation accumulates and emits
the code point once complete. -/
def utf8Step (st : Utf8State) (b : Nat) : Utf8State × List Nat :=
  if st.bytesNeeded = 0 then utf8Lead st b
  else if b < st.lowerBoundary ∨ st.upperBoundary < b then
    let st' :=
      { st with
          codePoint := 0, bytesNeeded := 0, bytesSeen := 0,
          lowerBoundary := 0x80, upperBoundary := 0xBF }
    let (st'', out) := utf8Lead st' b
    (st'', 0xFFFD :: out)
  else
    let st' :=
      { st with
          lowerBoundary := 0x80, upperBoundary := 0xBF,
          codePoint := st.codePoint * 64 + (b &&& 0x3F),
          bytesSeen := st.bytesSeen + 1 }
    if st'.bytesSeen = st'.bytesNeeded then
      ({ st' with codePoint := 0, bytesNeeded := 0, bytesSeen := 0 },
        [st'.codePoint])
    else (st', [])

/-- BOM handling of `TextDecoder` (default `ignoreBOM: false`): the very
first code point produced is dropped when it is U+FEFF; either way the
flag is set once anything is produced. -/
def applyBom (bomSeen : Bool) (cps : List Nat) : Bool × List Nat :=
  match cps with
  | [] => (bomSeen, [])
  | c :: rest =>
    if bomSeen then (true, c :: rest)
    else if c = 0xFEFF then (true, rest)
    else (true, c :: rest)

/-- One byte through `decoder.decode(·, {stream:true})`: UTF-8 step, then
BOM stripping, then code points to characters. -/
def utf8DecodeByte (st : Utf8State) (b : Nat) : Utf8State × List Char :=
  let (st', cps) := utf8Step st b
  let (bs, cps') := applyBom st.bomSeen cps
  ({ st' with bomSeen := bs }, cps'.map Char.ofNat)

/-- `decoder.decode(value, {stream:true})` on a whole chunk: bytes in
order through `utf8DecodeByte`, carrying the decoder state; any partial
multi-byte sequence at the end stays in the state for the next chunk. -/
def decodeBytes (st : Utf8State) (bytes : List Nat) : Utf8State × List Char :=
  match bytes with
  | [] => (st, [])
  | b :: rest =>
    let (st1, out1) := utf8DecodeByte st b
    let (st2, out2) := decodeBytes st1 rest
    (st2, out1 ++ out2)

/-- The character class of JavaScript's `\s` and `String.prototype.trim`:
ASCII whitespace, NBSP, the Unicode space separators, line/paragraph
separators and the BOM. -/
def isJsWhitespace (c : Char) : Bool :=
  c == ' ' || c == '\t' || c == '\n' || c == '\r' ||
  c.toNat == 0x0B || c.toNat == 0x0C || c.toNat == 0xA0 || c.toNat == 0x1680 ||
  (0x2000 ≤ c.toNat && c.toNat ≤ 0x200A) || c.toNat == 0x2028 ||
  c.toNat == 0x2029 || c.toNat == 0x202F || c.toNat == 0x205F ||
  c.toNat == 0x3000 || c.toNat == 0xFEFF

/-- `String.prototype.trim`. -/
def jsTrim (cs : List Char) : List Char :=
  ((cs.dropWhile isJsWhitespace).reverse.dropWhile isJsWhitespace).reverse

/-- `raw.split(/\n/)`. -/
def splitOnNl (cs : List Char) : List (List Char) :=
  match cs with
  | [] => [[]]
  | c :: rest =>
    let r := splitOnNl rest
    if c = '\n' then [] :: r
    else
      match r with
      | [] => [[c]]
      | l :: ls => (c :: l) :: ls

/-- Leftmost occurrence of the `\n\n` frame terminator: `findTerm s = some
(p, q)` splits `s` as `p ++ "\n\n" ++ q` at the first match, exactly as the
regex scan of `buffer.split(/\n\n/)` does. -/
def findTerm : List Char → Option (List Char × List Char)
  | [] => none
  | [_] => none
  | c :: d :: rest =>
    if c = '\n' ∧ d = '\n' then some ([], rest)
    else
      match findTerm (d :: rest) with
      | none => none
      | some (p, q) => some (c :: p, q)

/-- A successful `findTerm` strictly shrinks the remainder. -/
theorem findTerm_some_length : ∀ (s p q : List Char),
    findTerm s = some (p, q) → q.length < s.length
  | [], _, _, h => by simp [findTerm] at h
  | [_], _, _, h => by simp [findTerm] at h
  | c :: d :: rest, p, q, h => by
    rw [findTerm] at h
    by_cases hnl : c = '\n' ∧ d = '\n'
    · rw [if_pos hnl] at h
      cases h
      simp only [List.length_cons]
      omega
    · rw [if_neg hnl] at h
      cases hft : findTerm (d :: rest) with
      | none => rw [hft] at h; cases h
      | some pq =>
        rw [hft] at h
        obtain ⟨p1, q1⟩ := pq
        simp only [Option.some.injEq, Prod.mk.injEq] at h
        obtain ⟨hp, hq⟩ := h
        subst hq
        have hlt := findTerm_some_length (d :: rest) p1 q1 hft
        simp only [List.length_cons] at hlt ⊢
        omega

/-- `buffer.split(/\n\n/)` with the trailing element put back in the buffer:
the complete frames and the retained partial frame. -/
def splitFrames (s : List Char) : List (List Char) × List Char :=
  match h : findTerm s with
  | none => ([], s)
  | some (p, q) =>
    let (fs, r) := splitFrames q
    (p :: fs, r)
termination_by s.length
decreasing_by exact findTerm_some_length s p q h

/-- The `data` field of a decoded event.  The source initialises it to the
empty object `{}` and, on a `data:` line, stores `JSON.parse(dataStr)` when
that parses and the raw string `dataStr` otherwise — in either case a pure
function of the trimmed line text, which is what is recorded here. -/
inductive SSEData where
  | emptyObj
  | fromLine (s : List Char)
deriving DecidableEq, Repr

/-- A decoded stream event as `parseEventStream` yields it. -/
structure SSEvent where
  type : StreamEventType
  data : SSEData
deriving DecidableEq, Repr

/-- One line of a frame: blank lines are skipped, an `event:` line replaces
the tag via `mapEventType` (`line.replace('event:','').trim()` — the guard
makes the replace a drop of the 6-character prefix), a `data:` line replaces
the data, anything else (`id:` etc.) is ignored. -/
def processLine (ev : SSEvent) (line : List Char) : SSEvent :=
  if (jsTrim line).isEmpty then ev
  else if "event:".toList.isPrefixOf line then
    { ev with type := mapEventType (String.mk (jsTrim (line.drop 6))) }
  else if "data:".toList.isPrefixOf line then
    { ev with data := .fromLine (jsTrim (line.drop 5)) }
  else ev

/-- One complete frame: whitespace-only frames are skipped
(`if (!raw.trim()) continue`); otherwise the lines are folded over the
default event `{type: UNKNOWN, data: {}}` and exactly one event results. -/
def parseFrame (raw : List Char) : Option SSEvent :=
  if (jsTrim raw).isEmpty then none
  else some ((splitOnNl raw).foldl processLine ⟨.unknownEvent, .emptyObj⟩)

/-- One iteration of the `while (true)` read loop of `parseEventStream`:
decode the chunk (UTF-8, carrying decoder state), append to the buffer,
split off the complete frames (`buffer.split(/\n\n/)` with
`buffer = parts.pop()`), and yield one event per non-blank frame. -/
def processChunk (ps : Utf8State × List Char) (chunk : List Nat) :
    (Utf8State × List Char) × List SSEvent :=
  let (st, text) := decodeBytes ps.1 chunk
  let buf := ps.2 ++ text
  let (frames, rem) := splitFrames buf
  ((st, rem), frames.filterMap parseFrame)

/-- The read loop over a whole delivery: one `reader.read()` per chunk;
on `done` the loop exits, leaving any trailing partial frame undelivered. -/
def runChunks (ps : Utf8State × List Char) :
    List (List Nat) → (Utf8State × List Char) × List SSEvent
  | [] => (ps, [])
  | c :: cs =>
    let (ps1, evs1) := processChunk ps c
    let (ps2, evs2) := runChunks ps1 cs
    (ps2, evs1 ++ evs2)

/-- `ConversationService.parseEventStream` on a chunked byte delivery:
the events yielded, in order. -/
def parseEventStream (chunks : List (List Nat)) : List SSEvent :=
  (runChunks (Utf8State.init, []) chunks).2

/-- Byte-level UTF-8 decoding composes across chunk boundaries: decoding
`a ++ b` equals decoding `a`, then decoding `b` from the carried state. -/
theorem decodeBytes_append (a b : List Nat) (st : Utf8State) :
    decodeBytes st (a ++ b) =
      ((decodeBytes (decodeBytes st a).1 b).1,
        (decodeBytes st a).2 ++ (decodeBytes (decodeBytes st a).1 b).2) := by
  induction a generalizing st with
  | nil => simp [decodeBytes]
  | cons x xs ih =>
    simp only [List.cons_append, decodeBytes, List.append_eq]
    rw [ih (utf8DecodeByte st x).1]
    simp [List.append_assoc]

/-- Appending text to the right cannot move the leftmost frame
terminator. -/
theorem findTerm_append : ∀ (a b p q : List Char),
    findTerm a = some (p, q) → findTerm (a ++ b) = some (p, q ++ b)
  | [], _, _, _, h => by simp [findTerm] at h
  | [_], _, _, _, h => by simp [findTerm] at h
  | c :: d :: rest, b, p, q, h => by
    rw [findTerm] at h
    rw [List.cons_append, List.cons_append, findTerm]
    by_cases hnl : c = '\n' ∧ d = '\n'
    · rw [if_pos hnl] at h ⊢
      simp only [Option.some.injEq, Prod.mk.injEq] at h
      obtain ⟨hp, hq⟩ := h
      subst hp; subst hq
      rfl
    · rw [if_neg hnl] at h ⊢
      cases hft : findTerm (d :: rest) with
      | none => rw [hft] at h; cases h
      | some pq =>
        obtain ⟨p1, q1⟩ := pq
        rw [hft] at h
        simp only [Option.some.injEq, Prod.mk.injEq] at h
        obtain ⟨hp, hq⟩ := h
        subst hp; subst hq
        have hr : findTerm (d :: (rest ++ b)) = some (p1, q1 ++ b) := by
          rw [← List.cons_append]
          exact findTerm_append (d :: rest) b p1 q1 hft
        rw [hr]

/-- `splitFrames` on text without a terminator. -/
theorem splitFrames_of_none {s : List Char} (h : findTerm s = none) :
    splitFrames s = ([], s) := by
  rw [splitFrames]
  split
  · rfl
  · rename_i p q heq
    rw [h] at heq
    cases heq

/-- `splitFrames` peels the leftmost frame. -/
theorem splitFrames_of_some {s p q : List Char} (h : findTerm s = some (p, q)) :
    splitFrames s = (p :: (splitFrames q).1, (splitFrames q).2) := by
  rw [splitFrames]
  split
  · rename_i heq
    rw [h] at heq
    cases heq
  · rename_i p1 q1 heq
    rw [h] at heq
    simp only [Option.some.injEq, Prod.mk.injEq] at heq
    obtain ⟨hp, hq⟩ := heq
    subst hp; subst hq
    rfl

/-- The retained partial frame contains no terminator. -/
theorem findTerm_splitFrames_snd (s : List Char) :
    findTerm (splitFrames s).2 = none := by
  generalize hn : s.length = n
  induction n using Nat.strong_induction_on generalizing s with
  | _ n ih =>
    cases hft : findTerm s with
    | none => rw [splitFrames_of_none hft]; exact hft
    | some pq =>
      obtain ⟨p, q⟩ := pq
      rw [splitFrames_of_some hft]
      exact ih q.length (hn ▸ findTerm_some_length s p q hft) q rfl

/-- Frame splitting composes across appends: first split `a`, then split
the retained remainder extended by `b`. -/
theorem splitFrames_append (a b : List Char) :
    splitFrames (a ++ b) =
      ((splitFrames a).1 ++ (splitFrames ((splitFrames a).2 ++ b)).1,
        (splitFrames ((splitFrames a).2 ++ b)).2) := by
  generalize hn : a.length = n
  induction n using Nat.strong_induction_on generalizing a with
  | _ n ih =>
    cases hft : findTerm a with
    | none =>
      rw [splitFrames_of_none hft]
      simp
    | some pq =>
      obtain ⟨p, q⟩ := pq
      have h1 := splitFrames_of_some (findTerm_append a b p q hft)
      have h2 := splitFrames_of_some hft
      have h3 := ih q.length (hn ▸ findTerm_some_length a p q hft) q rfl
      rw [h1, h2, h3]
      simp

/-- One loop iteration composes across a chunk split: processing `a ++ b`
equals processing `a`, then `b` from the carried state and buffer. -/
theorem processChunk_append (ps : Utf8State × List Char) (a b : List Nat) :
    processChunk ps (a ++ b) =
      ((processChunk (processChunk ps a).1 b).1,
        (processChunk ps a).2 ++ (processChunk (processChunk ps a).1 b).2) := by
  simp only [processChunk, decodeBytes_append]
  rw [show ps.2 ++ ((decodeBytes ps.1 a).2 ++ (decodeBytes (decodeBytes ps.1 a).1 b).2) =
      (ps.2 ++ (decodeBytes ps.1 a).2) ++ (decodeBytes (decodeBytes ps.1 a).1 b).2 from
    (List.append_assoc _ _ _).symm]
  rw [splitFrames_append (ps.2 ++ (decodeBytes ps.1 a).2) (decodeBytes (decodeBytes ps.1 a).1 b).2]
  simp [List.filterMap_append]

/-- A delivery whose buffer holds no partial terminator behaves exactly as
its concatenation delivered in one chunk. -/
theorem runChunks_flatten (cs : List (List Nat)) (ps : Utf8State × List Char)
    (h : findTerm ps.2 = none) :
    runChunks ps cs = processChunk ps cs.flatten := by
  induction cs generalizing ps with
  | nil =>
    simp only [runChunks, List.flatten_nil, processChunk, decodeBytes, List.append_nil]
    rw [splitFrames_of_none h]
    simp
  | cons c cs ih =>
    simp only [runChunks, List.flatten_cons]
    rw [processChunk_append ps c cs.flatten]
    rw [ih (processChunk ps c).1 (by simp only [processChunk]; exact findTerm_splitFrames_snd _)]

/-- C1: decoding a byte stream delivered in arbitrary chunks yields exactly
the event sequence of decoding the same bytes delivered as one contiguous
chunk — partial frames and partial UTF-8 sequences at chunk boundaries are
carried over and never produce extra, missing or reordered events. -/
theorem parseEventStream_chunking_invariant (chunks : List (List Nat)) :
    parseEventStream chunks = parseEventStream [chunks.flatten] := by
  rw [parseEventStream, parseEventStream]
  rw [runChunks_flatten chunks (Utf8State.init, []) rfl]
  rw [show runChunks (Utf8State.init, []) [chunks.flatten] =
      processChunk (Utf8State.init, []) (List.flatten [chunks.flatten]) from
    runChunks_flatten [chunks.flatten] (Utf8State.init, []) rfl]
  simp

/-- A `false`-valued boolean is not `true`. -/
theorem ne_true_of_false {b : Bool} (h : b = false) : ¬(b = true) := by
  intro hcon
  rw [hcon] at h
  exact Bool.noConfusion h

/-- Lines that are not `event:` lines never change the tag. -/
theorem foldl_processLine_type (lines : List (List Char)) (ev : SSEvent)
    (h : ∀ l ∈ lines, "event:".toList.isPrefixOf l = false) :
    (lines.foldl processLine ev).type = ev.type := by
  induction lines generalizing ev with
  | nil => rfl
  | cons l ls ih =>
    rw [List.foldl_cons]
    rw [ih (processLine ev l) (fun x hx => h x (List.mem_cons_of_mem _ hx))]
    have hl := h l (List.mem_cons_self _ _)
    unfold processLine
    by_cases hb : (jsTrim l).isEmpty
    · rw [if_pos hb]
    · rw [if_neg hb, if_neg (ne_true_of_false hl)]
      by_cases hd : "data:".toList.isPrefixOf l
      · rw [if_pos hd]
      · rw [if_neg hd]

/-- Lines that are not `data:` lines never change the data. -/
theorem foldl_processLine_data (lines : List (List Char)) (ev : SSEvent)
    (h : ∀ l ∈ lines, "data:".toList.isPrefixOf l = false) :
    (lines.foldl processLine ev).data = ev.data := by
  induction lines generalizing ev with
  | nil => rfl
  | cons l ls ih =>
    rw [List.foldl_cons]
    rw [ih (processLine ev l) (fun x hx => h x (List.mem_cons_of_mem _ hx))]
    have hl := h l (List.mem_cons_self _ _)
    unfold processLine
    by_cases hb : (jsTrim l).isEmpty
    · rw [if_pos hb]
    · rw [if_neg hb]
      by_cases he : "event:".toList.isPrefixOf l
      · rw [if_pos he]
      · rw [if_neg he, if_neg (ne_true_of_false hl)]

/-- C10: per-frame semantics of `parseEventStream` — a whitespace-only
frame yields no event and any other frame yields exactly one; a line that
is neither an `event:` line nor a `data:` line is ignored; without an
`event:` line the tag stays the default `UNKNOWN`, and without a `data:`
line the data stays the default `{}`; over any frame list the decoder
yields exactly one event per frame containing non-whitespace text. -/
theorem parseFrame_frame_semantics :
    (∀ f : List Char, (jsTrim f).isEmpty = false → (parseFrame f).isSome = true) ∧
    (∀ f : List Char, (jsTrim f).isEmpty = true → parseFrame f = none) ∧
    (∀ (ev : SSEvent) (l : List Char), "event:".toList.isPrefixOf l = false →
      "data:".toList.isPrefixOf l = false → processLine ev l = ev) ∧
    (∀ f : List Char, (∀ l ∈ splitOnNl f, "event:".toList.isPrefixOf l = false) →
      ∀ ev, parseFrame f = some ev → ev.type = .unknownEvent) ∧
    (∀ f : List Char, (∀ l ∈ splitOnNl f, "data:".toList.isPrefixOf l = false) →
      ∀ ev, parseFrame f = some ev → ev.data = .emptyObj) ∧
    (∀ frames : List (List Char),
      (frames.filterMap parseFrame).length =
        (frames.filter (fun fr => !(jsTrim fr).isEmpty)).length) := by
  have hsome : ∀ f : List Char, (jsTrim f).isEmpty = false → (parseFrame f).isSome = true := by
    intro f hf
    rw [parseFrame, if_neg (by simp [hf])]
    rfl
  have hnone : ∀ f : List Char, (jsTrim f).isEmpty = true → parseFrame f = none := by
    intro f hf
    rw [parseFrame, if_pos hf]
  refine ⟨hsome, hnone, ?_, ?_, ?_, ?_⟩
  · intro ev l he hd
    unfold processLine
    by_cases hb : (jsTrim l).isEmpty
    · rw [if_pos hb]
    · rw [if_neg hb, if_neg (ne_true_of_false he), if_neg (ne_true_of_false hd)]
  · intro f hf ev hev
    rw [parseFrame] at hev
    by_cases hb : (jsTrim f).isEmpty
    · rw [if_pos hb] at hev; cases hev
    · rw [if_neg hb] at hev
      have := foldl_processLine_type (splitOnNl f) ⟨.unknownEvent, .emptyObj⟩ hf
      cases hev
      exact this
  · intro f hf ev hev
    rw [parseFrame] at hev
    by_cases hb : (jsTrim f).isEmpty
    · rw [if_pos hb] at hev; cases hev
    · rw [if_neg hb] at hev
      have := foldl_processLine_data (splitOnNl f) ⟨.unknownEvent, .emptyObj⟩ hf
      cases hev
      exact this
  · intro frames
    induction frames with
    | nil => rfl
    | cons f fs ih =>
      by_cases hb : (jsTrim f).isEmpty
      · rw [List.filterMap_cons, hnone f hb, List.filter_cons]
        simp [hb, ih]
      · rw [List.filterMap_cons, List.filter_cons]
        have := hsome f (by simpa using hb)
        cases hp : parseFrame f with
        | none => rw [hp] at this; cases this
        | some ev => simp [hb, ih]

/-- C10 (witness): the frame `"id: 7\nfoo"` contains non-whitespace text
but neither an `event:` nor a `data:` line: it yields exactly one event,
with the default `UNKNOWN` tag and `{}` data; the whitespace-only frame
`"  \n "` yields none; the inert line `"id: 7"` leaves any event
unchanged. -/
theorem parseFrame_frame_semantics_witness :
    ((jsTrim ("id: 7\nfoo".toList)).isEmpty = false ∧
      (∀ l ∈ splitOnNl ("id: 7\nfoo".toList), "event:".toList.isPrefixOf l = false) ∧
      (∀ l ∈ splitOnNl ("id: 7\nfoo".toList), "data:".toList.isPrefixOf l = false) ∧
      (jsTrim ("  \n ".toList)).isEmpty = true ∧
      "event:".toList.isPrefixOf ("id: 7".toList) = false ∧
      "data:".toList.isPrefixOf ("id: 7".toList) = false ∧
      parseFrame ("id: 7\nfoo".toList) = some ⟨.unknownEvent, .emptyObj⟩) ∧
    (parseFrame ("id: 7\nfoo".toList)).isSome = true ∧
    parseFrame ("  \n ".toList) = none ∧
    processLine ⟨.messageOutputDelta, .emptyObj⟩ ("id: 7".toList) =
      ⟨.messageOutputDelta, .emptyObj⟩ ∧
    (∀ ev, parseFrame ("id: 7\nfoo".toList) = some ev → ev.type = .unknownEvent) ∧
    (∀ ev, parseFrame ("id: 7\nfoo".toList) = some ev → ev.data = .emptyObj) :=
  ⟨⟨by decide, by decide, by decide, by decide, by decide, by decide, by decide⟩,
    parseFrame_frame_semantics.1 ("id: 7\nfoo".toList) (by decide),
    parseFrame_frame_semantics.2.1 ("  \n ".toList) (by decide),
    parseFrame_frame_semantics.2.2.1 ⟨.messageOutputDelta, .emptyObj⟩ ("id: 7".toList)
      (by decide) (by decide),
    parseFrame_frame_semantics.2.2.2.1 ("id: 7\nfoo".toList) (by decide),
    parseFrame_frame_semantics.2.2.2.2.1 ("id: 7\nfoo".toList) (by decide)⟩

end SSE


namespace Workflow

/-- `MessageSource` entries extracted from tool outputs. -/
structure MessageSource where
  title : String
  url : String
  source : String
deriving DecidableEq, Repr

/-- Usage accounting carried by `conversation.response.done`. -/
structure Usage where
  prompt_tokens : Nat
  completion_tokens : Nat
  total_tokens : Nat
deriving DecidableEq, Repr

/-- The dynamic `event.data` payload: exactly the fields the coordinator
dereferences (`event.data?.x`), each optional.  `outputs` records the tool
output after the source's string coercion (`typeof outputs === 'string' ?
outputs : JSON.stringify(outputs)`); `none` stands for an absent or falsy
value. -/
structure EventData where
  conversation_id : Option String
  content : Option String
  agent_name : Option String
  name : Option String
  outputs : Option String
  usage : Option Usage
deriving DecidableEq, Repr

/-- A payload with every field absent. -/
def EventData.empty : EventData :=
  { conversation_id := none, content := none, agent_name := none,
    name := none, outputs := none, usage := none }

/-- A `StreamEvent` as the coordinator consumes it; `data` is `none` when
the event carried no (object) payload. -/
structure StreamEvent where
  type : StreamEventType
  data : Option EventData
deriving DecidableEq, Repr

/-- The `WorkflowState` interface of the source. -/
structure WorkflowState where
  conversationId : Option String
  currentAgent : Option String
  workflowPath : List String
  accumulatedContent : String
  sources : List MessageSource
  isProcessing : Bool
  error : Option String
  rawEvents : List StreamEvent
deriving DecidableEq, Repr

/-- The state `resetWorkflowState` installs (also the constructor's). -/
def initialWorkflowState : WorkflowState :=
  { conversationId := none, currentAgent := none, workflowPath := [],
    accumulatedContent := "", sources := [], isProcessing := false,
    error := none, rawEvents := [] }

/-- JS `x || null` on an optional string: the empty string is falsy. -/
def jsOrNone (o : Option String) : Option String :=
  match o with
  | some s => if s = "" then none else some s
  | none => none

/-- JS `x || d` on an optional string. -/
def jsOrDefault (o : Option String) (d : String) : String :=
  match o with
  | some s => if s = "" then d else s
  | none => d

/-- The regex `/(https?:\/\/[^\s]+)/` anchored at the start of `cs`:
scheme, then one or more non-whitespace characters, greedily. -/
def urlMatchAt (cs : List Char) : Option (List Char) :=
  if "https://".toList.isPrefixOf cs then
    let tail := (cs.drop 8).takeWhile (fun c => !SSE.isJsWhitespace c)
    if tail.isEmpty then none else some ("https://".toList ++ tail)
  else if "http://".toList.isPrefixOf cs then
    let tail := (cs.drop 7).takeWhile (fun c => !SSE.isJsWhitespace c)
    if tail.isEmpty then none else some ("http://".toList ++ tail)
  else none

/-- `String.prototype.includes`: does `pat` occur as a contiguous
subsequence? -/
def containsSeq (pat : List Char) : List Char → Bool
  | [] => pat.isEmpty
  | c :: rest => pat.isPrefixOf (c :: rest) || containsSeq pat rest

/-- `toolOutput.match(/(https?:\/\/[^\s]+)/)`: the leftmost match. -/
def findUrlMatch : List Char → Option (List Char)
  | [] => none
  | c :: rest =>
    match urlMatchAt (c :: rest) with
    | some m => some m
    | none => findUrlMatch rest

/-- `WorkflowCoordinator.processStreamEvent`: the per-event transition.
`TOOL_EXECUTION_STARTED` falls to the switch's default and `UNKNOWN` only
logs a warning; neither mutates the state. -/
def processStreamEvent (state : WorkflowState) (event : StreamEvent) :
    WorkflowState :=
  match event.type with
  | .conversationResponseStarted =>
    { state with conversationId := jsOrNone (event.data.bind EventData.conversation_id) }
  | .messageOutputDelta =>
    { state with accumulatedContent :=
        state.accumulatedContent ++ jsOrDefault (event.data.bind EventData.content) "" }
  | .agentHandoffStarted =>
    let newAgentName := jsOrDefault (event.data.bind EventData.agent_name) "Unknown Agent"
    let s1 := { state with currentAgent := some newAgentName }
    let s2 :=
      if s1.workflowPath.contains newAgentName then s1
      else { s1 with workflowPath := s1.workflowPath ++ [newAgentName] }
    { s2 with accumulatedContent :=
        s2.accumulatedContent ++ "\n\n**Handoff to " ++ newAgentName ++ "**\n\n" }
  | .toolExecutionDone =>
    match jsOrNone (event.data.bind EventData.name) with
    | none => state
    | some toolName =>
      match event.data.bind EventData.outputs with
      | none => state
      | some toolOutput =>
        if containsSeq "http".toList toolOutput.toList then
          match findUrlMatch toolOutput.toList with
          | some m =>
            { state with sources := state.sources ++
                [{ title := toolName, url := String.mk m,
                   source := String.mk (toolName.toList.takeWhile (fun c => c != '.')) }] }
          | none => state
        else state
  | .conversationResponseDone => state
  | .toolExecutionStarted => state
  | .unknownEvent => state

/-- The body of the `for await` loop: `rawEvents.push(event)` followed by
`processStreamEvent(event)` (the transition never reads `rawEvents`). -/
def stepEvent (s : WorkflowState) (e : StreamEvent) : WorkflowState :=
  processStreamEvent { s with rawEvents := s.rawEvents ++ [e] } e

/-- The whole `for await` loop: the final state plus the value of the
coordinator state at each per-event `onUpdate` call, in order. -/
def runEvents (s : WorkflowState) : List StreamEvent → WorkflowState × List WorkflowState
  | [] => (s, [])
  | e :: es =>
    let s1 := stepEvent s e
    let (sEnd, trace) := runEvents s1 es
    (sEnd, s1 :: trace)

/-- The deterministic fields of the `AgentCompletionResponse` that
`executeWorkflow` assembles on success (`object`, `created_at =
Date.now()`, the empty `choices` and the debug `rawApiResponse` carry no
state). -/
structure AgentCompletionResponse where
  id : String
  conversation_id : String
  content : String
  sources : List MessageSource
  hasPdfUrls : Bool
  stepName : Option String
  workflowPath : List String
  usage : Option Usage
deriving DecidableEq, Repr

/-- The success response: `conversationId || 'unknown_conv_id'`, the
accumulated content, sources, `.pdf` detection, the last workflow step,
and the usage from the first `conversation.response.done` raw event
(`|| {}` modelled as `none`). -/
def buildFinalResponse (s : WorkflowState) : AgentCompletionResponse :=
  { id := jsOrDefault s.conversationId "unknown_conv_id"
    conversation_id := jsOrDefault s.conversationId "unknown_conv_id"
    content := s.accumulatedContent
    sources := s.sources
    hasPdfUrls := s.sources.any (fun src => src.url.endsWith ".pdf")
    stepName := s.workflowPath.getLast?
    workflowPath := s.workflowPath
    usage := (s.rawEvents.find? (fun e => e.type == .conversationResponseDone)).bind
      (fun e => e.data.bind EventData.usage) }

/-- State after the prologue of `executeWorkflow`: reset, `isProcessing =
true`, the initial agent installed and pushed, and — for append/restart
requests whose `conversationId` is truthy — the conversation id. -/
def startState (reqConversationId : Option String) (initialAgentName : String) :
    WorkflowState :=
  let s0 :=
    { initialWorkflowState with
        isProcessing := true,
        currentAgent := some initialAgentName,
        workflowPath := initialWorkflowState.workflowPath ++ [initialAgentName] }
  match jsOrNone reqConversationId with
  | some cid => { s0 with conversationId := some cid }
  | none => s0

/-- Observable outcome of one `executeWorkflow` call.  `updates` lists the
value held by the coordinator state at each `onUpdate` invocation, in
order: the prologue call, one call per event, on failure the `catch`
call, and the `finally` call. -/
structure ExecResult where
  success : Bool
  response : Option AgentCompletionResponse
  errorMsg : Option String
  finalState : WorkflowState
  updates : List WorkflowState
deriving DecidableEq, Repr

/-- `WorkflowCoordinator.executeWorkflow(request, initialAgentName,
onUpdate)`.  `events` are the stream events delivered before the stream
closes (or raises); `streamError = some msg` when acquiring or iterating
the stream throws after those events — the `catch` records the message
and returns a failure, and the `finally` clears `isProcessing` in every
path. -/
def executeWorkflow (reqConversationId : Option String)
    (events : List StreamEvent) (streamError : Option String)
    (initialAgentName : String) : ExecResult :=
  let s0 := startState reqConversationId initialAgentName
  let (sEnd, trace) := runEvents s0 events
  match streamError with
  | none =>
    let response := buildFinalResponse sEnd
    let sFin := { sEnd with isProcessing := false }
    { success := true, response := some response, errorMsg := none,
      finalState := sFin, updates := s0 :: (trace ++ [sFin]) }
  | some msg =>
    let sErr := { sEnd with error := some msg }
    let sFin := { sErr with isProcessing := false }
    { success := false, response := none, errorMsg := some msg,
      finalState := sFin, updates := s0 :: (trace ++ [sErr, sFin]) }

/-- What a caller that retained the `k`-th `onUpdate` argument observes
once `executeWorkflow` has returned.  In the source every call is
`onUpdate?.(this.currentWorkflowState)`: `resetWorkflowState()` allocates
the state object once, before the first call, and every later change —
field assignments in `processStreamEvent`, `rawEvents.push`, the `catch`
and `finally` writes — mutates that same object in place, so each call
passes a reference to one shared object whose value at the end of the run
is the final state. -/
def snapshotSeenAfterRun (r : ExecResult) (k : Nat) : Option WorkflowState :=
  if k < r.updates.length then some r.finalState else none

/-- An `agent.handoff.started` event carrying `agent_name = n`. -/
def handoffEvt (n : String) : StreamEvent :=
  ⟨.agentHandoffStarted, some { EventData.empty with agent_name := some n }⟩

/-- A `conversation.response.started` event carrying a conversation id. -/
def startedEvt (cid : String) : StreamEvent :=
  ⟨.conversationResponseStarted, some { EventData.empty with conversation_id := some cid }⟩

/-- A `message.output.delta` event carrying a content fragment. -/
def deltaEvt (c : String) : StreamEvent :=
  ⟨.messageOutputDelta, some { EventData.empty with content := some c }⟩

/-- A `conversation.response.done` event carrying usage accounting. -/
def doneEvt (u : Usage) : StreamEvent :=
  ⟨.conversationResponseDone, some { EventData.empty with usage := some u }⟩

end Workflow

namespace Workflow

/-- C5 (counterexample): the claim predicts that the handoff sequence
returning to a previously visited agent re-appends it whenever it differs
from the current last entry — initial agent `A`, handoffs to `B` then back
to `A` should give `[A, B, A]`.  The code checks
`workflowPath.includes(newAgentName)` — membership anywhere, not the last
entry — so the returning agent is not re-appended and the path stays
`[A, B]`. -/
theorem handoff_returning_agent_not_reappended :
    (executeWorkflow none [handoffEvt "B", handoffEvt "A"] none "A").finalState.workflowPath
      = ["A", "B"] ∧
    (executeWorkflow none [handoffEvt "B", handoffEvt "A"] none "A").finalState.workflowPath
      ≠ ["A", "B", "A"] := by
  decide

/-- C5 (amended): an `agent.handoff.started` event appends the incoming
agent name to `workflowPath` if and only if that name is not already a
member of `workflowPath` anywhere — so the path never repeats an agent
consecutively, and indeed never repeats an agent at all: an agent visited
earlier is not appended again even when it differs from the current last
entry.  `currentAgent` is always set to the incoming name. -/
theorem handoff_appends_iff_not_member (s : WorkflowState) (d : Option EventData) :
    (processStreamEvent s ⟨.agentHandoffStarted, d⟩).workflowPath =
      (if s.workflowPath.contains (jsOrDefault (d.bind EventData.agent_name) "Unknown Agent")
       then s.workflowPath
       else s.workflowPath ++ [jsOrDefault (d.bind EventData.agent_name) "Unknown Agent"]) ∧
    (processStreamEvent s ⟨.agentHandoffStarted, d⟩).currentAgent =
      some (jsOrDefault (d.bind EventData.agent_name) "Unknown Agent") := by
  by_cases hc : (jsOrDefault (d.bind EventData.agent_name) "Unknown Agent") ∈ s.workflowPath
  · constructor <;> simp [processStreamEvent, hc]
  · constructor <;> simp [processStreamEvent, hc]

/-- C6: when the stream raises after delivering a prefix of events (or
before delivering any), `executeWorkflow` returns a failure, the error
message is recorded, `isProcessing` is cleared by the `finally`, and every
accumulated component — accumulated content, workflow path, sources and
the raw-event log — equals the fold of the delivered prefix: nothing is
reset or discarded. -/
theorem midstream_failure_preserves_state (reqCid : Option String)
    (events : List StreamEvent) (msg : String) (name : String) :
    (executeWorkflow reqCid events (some msg) name).success = false ∧
    (executeWorkflow reqCid events (some msg) name).errorMsg = some msg ∧
    (executeWorkflow reqCid events (some msg) name).finalState.isProcessing = false ∧
    (executeWorkflow reqCid events (some msg) name).finalState.error = some msg ∧
    (executeWorkflow reqCid events (some msg) name).finalState.accumulatedContent =
      (runEvents (startState reqCid name) events).1.accumulatedContent ∧
    (executeWorkflow reqCid events (some msg) name).finalState.workflowPath =
      (runEvents (startState reqCid name) events).1.workflowPath ∧
    (executeWorkflow reqCid events (some msg) name).finalState.sources =
      (runEvents (startState reqCid name) events).1.sources ∧
    (executeWorkflow reqCid events (some msg) name).finalState.rawEvents =
      (runEvents (startState reqCid name) events).1.rawEvents := by
  cases hr : runEvents (startState reqCid name) events with
  | mk sEnd trace => simp [executeWorkflow, hr]

/-- C7: the event sequence `[ConversationStarted, MessageDelta("Hello "),
MessageDelta("world!"), ConversationDone]` from the initial state ends in
a success with `accumulatedContent = "Hello world!"`, `isProcessing =
false`, the conversation id recorded, and the single-agent path; in
general every `message.output.delta` event appends exactly its content
fragment to `accumulatedContent` and changes nothing else. -/
theorem roundtrip_hello_world :
    ((executeWorkflow none
        [startedEvt "conv_456", deltaEvt "Hello ", deltaEvt "world!", doneEvt ⟨10, 20, 30⟩]
        none "Document Library").success = true ∧
     (executeWorkflow none
        [startedEvt "conv_456", deltaEvt "Hello ", deltaEvt "world!", doneEvt ⟨10, 20, 30⟩]
        none "Document Library").finalState.accumulatedContent = "Hello world!" ∧
     (executeWorkflow none
        [startedEvt "conv_456", deltaEvt "Hello ", deltaEvt "world!", doneEvt ⟨10, 20, 30⟩]
        none "Document Library").finalState.isProcessing = false ∧
     ((executeWorkflow none
        [startedEvt "conv_456", deltaEvt "Hello ", deltaEvt "world!", doneEvt ⟨10, 20, 30⟩]
        none "Document Library").response.map AgentCompletionResponse.content) =
       some "Hello world!" ∧
     ((executeWorkflow none
        [startedEvt "conv_456", deltaEvt "Hello ", deltaEvt "world!", doneEvt ⟨10, 20, 30⟩]
        none "Document Library").response.map AgentCompletionResponse.conversation_id) =
       some "conv_456" ∧
     (executeWorkflow none
        [startedEvt "conv_456", deltaEvt "Hello ", deltaEvt "world!", doneEvt ⟨10, 20, 30⟩]
        none "Document Library").finalState.workflowPath = ["Document Library"]) ∧
    (∀ (s : WorkflowState) (c : String),
      processStreamEvent s (deltaEvt c) =
        { s with accumulatedContent := s.accumulatedContent ++ c }) := by
  constructor
  · decide
  · intro s c
    by_cases hc : c = ""
    · subst hc
      simp [processStreamEvent, deltaEvt, jsOrDefault]
    · simp [processStreamEvent, deltaEvt, jsOrDefault, hc]

end Workflow

namespace Workflow

/-- Unfolding of `runEvents` on a cons. -/
theorem runEvents_cons (s : WorkflowState) (e : StreamEvent) (es : List StreamEvent) :
    runEvents s (e :: es) =
      ((runEvents (stepEvent s e) es).1,
        stepEvent s e :: (runEvents (stepEvent s e) es).2) := by
  cases hr : runEvents (stepEvent s e) es with
  | mk a b => simp [runEvents, hr]

/-- The loop makes exactly one per-event `onUpdate` call. -/
theorem runEvents_trace_length (s : WorkflowState) (events : List StreamEvent) :
    (runEvents s events).2.length = events.length := by
  induction events generalizing s with
  | nil => rfl
  | cons e es ih =>
    rw [runEvents_cons]
    simp [ih]

/-- The `i`-th per-event call carries the state after the first `i + 1`
events are fully applied. -/
theorem runEvents_trace_get (s : WorkflowState) (events : List StreamEvent) (i : Nat)
    (h : i < events.length) :
    (runEvents s events).2.get? i = some (runEvents s (events.take (i + 1))).1 := by
  induction events generalizing s i with
  | nil => simp at h
  | cons e es ih =>
    rw [runEvents_cons]
    cases i with
    | zero =>
      rw [List.take_succ_cons, List.take_zero, runEvents_cons]
      rfl
    | succ j =>
      have hj : j < es.length := by
        simp only [List.length_cons] at h
        omega
      rw [List.take_succ_cons, runEvents_cons]
      show (runEvents (stepEvent s e) es).2.get? j = _
      exact ih (stepEvent s e) j hj

/-- Shape of the `onUpdate` call sequence on a successful run: the
prologue value, the per-event values, the `finally` value. -/
theorem executeWorkflow_updates_shape (reqCid : Option String)
    (events : List StreamEvent) (name : String) :
    (executeWorkflow reqCid events none name).updates =
      startState reqCid name ::
        ((runEvents (startState reqCid name) events).2 ++
          [(executeWorkflow reqCid events none name).finalState]) := by
  cases hr : runEvents (startState reqCid name) events with
  | mk sEnd trace => simp [executeWorkflow, hr]

/-- C9 (counterexample): the claim says the snapshot callback receives an
immutable copy, distinct from the coordinator's internal state and
unaffected by later transitions.  In the source every call is
`onUpdate?.(this.currentWorkflowState)` — the live, in-place-mutated state
object, not a copy — so for the run `[MessageDelta("Hello "),
MessageDelta("world!")]` the caller's retained first-event snapshot, read
after the run, shows `"Hello world!"` although the state at call time was
`"Hello "`. -/
theorem onUpdate_live_reference_counterexample :
    ((executeWorkflow none [deltaEvt "Hello ", deltaEvt "world!"] none
        "Document Library").updates.get? 1).map WorkflowState.accumulatedContent =
      some "Hello " ∧
    (snapshotSeenAfterRun
        (executeWorkflow none [deltaEvt "Hello ", deltaEvt "world!"] none
          "Document Library") 1).map WorkflowState.accumulatedContent =
      some "Hello world!" ∧
    snapshotSeenAfterRun
        (executeWorkflow none [deltaEvt "Hello ", deltaEvt "world!"] none
          "Document Library") 1 ≠
      (executeWorkflow none [deltaEvt "Hello ", deltaEvt "world!"] none
        "Document Library").updates.get? 1 := by
  decide

/-- C9 (amended): on a successful run the callback is invoked exactly once
after each event (plus the prologue and `finally` calls), and the value
held by the state at the `i`-th per-event call reflects the fully applied
transition of the first `i + 1` events; but the argument is a reference to
the coordinator's live internal state object, not a copy, so every
retained snapshot reads as the final state once the run has returned. -/
theorem onUpdate_per_event_snapshot (reqCid : Option String)
    (events : List StreamEvent) (name : String) :
    (executeWorkflow reqCid events none name).updates.length = events.length + 2 ∧
    (executeWorkflow reqCid events none name).updates.get? 0 =
      some (startState reqCid name) ∧
    (∀ i, i < events.length →
      (executeWorkflow reqCid events none name).updates.get? (i + 1) =
        some (runEvents (startState reqCid name) (events.take (i + 1))).1) ∧
    (executeWorkflow reqCid events none name).updates.get? (events.length + 1) =
      some (executeWorkflow reqCid events none name).finalState ∧
    (∀ k, k < (executeWorkflow reqCid events none name).updates.length →
      snapshotSeenAfterRun (executeWorkflow reqCid events none name) k =
        some (executeWorkflow reqCid events none name).finalState) := by
  refine ⟨?_, ?_, ?_, ?_, ?_⟩
  · rw [executeWorkflow_updates_shape]
    simp [runEvents_trace_length]
  · rw [executeWorkflow_updates_shape]
    rfl
  · intro i hi
    rw [executeWorkflow_updates_shape]
    show ((runEvents (startState reqCid name) events).2 ++
      [(executeWorkflow reqCid events none name).finalState]).get? i = _
    rw [List.get?_append (by rw [runEvents_trace_length]; exact hi)]
    exact runEvents_trace_get (startState reqCid name) events i hi
  · rw [executeWorkflow_updates_shape]
    show ((runEvents (startState reqCid name) events).2 ++
      [(executeWorkflow reqCid events none name).finalState]).get? events.length = _
    rw [List.get?_append_right (by rw [runEvents_trace_length])]
    simp [runEvents_trace_length]
  · intro k hk
    rw [snapshotSeenAfterRun, if_pos hk]

/-- C9 (witness): the amended statement at the one-event run
`[MessageDelta("Hello ")]` — the per-event call at `i = 0` and the
retained snapshot at `k = 0`. -/
theorem onUpdate_per_event_snapshot_witness :
    (0 < ([deltaEvt "Hello "] : List StreamEvent).length ∧
      0 < (executeWorkflow none [deltaEvt "Hello "] none "Doc").updates.length) ∧
    (executeWorkflow none [deltaEvt "Hello "] none "Doc").updates.get? 1 =
      some (runEvents (startState none "Doc") (List.take 1 [deltaEvt "Hello "])).1 ∧
    snapshotSeenAfterRun (executeWorkflow none [deltaEvt "Hello "] none "Doc") 0 =
      some (executeWorkflow none [deltaEvt "Hello "] none "Doc").finalState :=
  ⟨⟨by decide, by decide⟩,
    (onUpdate_per_event_snapshot none [deltaEvt "Hello "] "Doc").2.2.1 0 (by decide),
    (onUpdate_per_event_snapshot none [deltaEvt "Hello "] "Doc").2.2.2.2 0 (by decide)⟩

end Workflow

/-- C8: a frame whose `event:` name is not one of the six known names maps
to the `UNKNOWN` tag instead of raising; the coordinator's transition for
an `UNKNOWN` event changes nothing, and the loop body records it in the
raw-event log only; a stream with such an event interleaved between valid
events completes successfully with no error recorded and the unknown
event present in the log. -/
theorem unknownEvent_mapped_and_inert :
    (∀ s : String, s ∉ SSE.knownEventNames →
      SSE.mapEventType s = StreamEventType.unknownEvent) ∧
    (∀ (st : Workflow.WorkflowState) (d : Option Workflow.EventData),
      Workflow.processStreamEvent st ⟨.unknownEvent, d⟩ = st) ∧
    (∀ (st : Workflow.WorkflowState) (d : Option Workflow.EventData),
      Workflow.stepEvent st ⟨.unknownEvent, d⟩ =
        { st with rawEvents := st.rawEvents ++ [⟨.unknownEvent, d⟩] }) ∧
    ((Workflow.executeWorkflow none
        [Workflow.startedEvt "conv_456", ⟨.unknownEvent, none⟩,
          Workflow.doneEvt ⟨10, 20, 30⟩] none "Document Library").success = true ∧
     (Workflow.executeWorkflow none
        [Workflow.startedEvt "conv_456", ⟨.unknownEvent, none⟩,
          Workflow.doneEvt ⟨10, 20, 30⟩] none "Document Library").finalState.error = none ∧
     (Workflow.executeWorkflow none
        [Workflow.startedEvt "conv_456", ⟨.unknownEvent, none⟩,
          Workflow.doneEvt ⟨10, 20, 30⟩] none
        "Document Library").finalState.rawEvents.length = 3 ∧
     (Workflow.executeWorkflow none
        [Workflow.startedEvt "conv_456", ⟨.unknownEvent, none⟩,
          Workflow.doneEvt ⟨10, 20, 30⟩] none
        "Document Library").finalState.rawEvents.get? 1 = some ⟨.unknownEvent, none⟩ ∧
     (Workflow.executeWorkflow none
        [Workflow.startedEvt "conv_456", ⟨.unknownEvent, none⟩,
          Workflow.doneEvt ⟨10, 20, 30⟩] none
        "Document Library").finalState.accumulatedContent =
       (Workflow.executeWorkflow none
          [Workflow.startedEvt "conv_456", Workflow.doneEvt ⟨10, 20, 30⟩] none
          "Document Library").finalState.accumulatedContent) := by
  refine ⟨?_, ?_, ?_, by decide⟩
  · intro s hs
    simp only [SSE.knownEventNames, List.mem_cons, List.not_mem_nil, or_false, not_or] at hs
    obtain ⟨h1, h2, h3, h4, h5, h6⟩ := hs
    simp [SSE.mapEventType, h1, h2, h3, h4, h5, h6]
  · intro st d
    rfl
  · intro st d
    rfl

/-- C8 (witness): the unrecognised name `"unknown.event"` of the test
fixtures. -/
theorem unknownEvent_mapped_and_inert_witness :
    ("unknown.event" ∉ SSE.knownEventNames) ∧
    SSE.mapEventType "unknown.event" = StreamEventType.unknownEvent :=
  ⟨by decide, unknownEvent_mapped_and_inert.1 "unknown.event" (by decide)⟩
